import Mathlib

/-!
Verification of the `platform-events` crate (RelayOne/platform): a shallow
embedding of the cross-application event bus and proofs about its topic
matcher, local (in-memory) bus, and the two Redis-backed distributed buses.

Sources embedded here:
* `src/crates/platform-events/src/bus.rs` — `MemoryEventBus` (topic matcher,
  publish/subscribe/handler registry/stats) and the feature-gated
  `redis_bus::RedisEventBus` (replay, unsubscribe).
* `src/crates/platform-events/src/redis.rs` — the second `RedisEventBus`
  (single shared broadcast channel plus a background listener loop).
* `src/crates/platform-events/src/types.rs` — the `Event` envelope.
* `src/crates/platform-rbac/src/resources.rs` — the `App` enum used as an
  event's `source`.

Conventions: `u64`/`usize` counters are modelled as `Nat`; they are only ever
incremented by one per bus call, so overflow is unreachable within any
execution shorter than `2 ^ 64` operations and is not modelled — except for
`redis_bus`'s `AtomicU64::fetch_sub`, whose wrap-around at zero is reachable
on the very first call and is therefore modelled explicitly modulo `2 ^ 64`.
Concurrency is linearised: each bus method is a pure state transition, and
"spawning" a handler invocation is recorded as a `(handler id, event)` pair
in the method's result.
-/

/-! ### Topic matcher (bus.rs, `MemoryEventBus::topic_matches`, lines 150-197) -/

/-- Rust `str::split('.')`: split the character sequence at every dot.
`""` splits to `[""]`, `"a.b"` to `["a", "b"]`, `"."` to `["", ""]`,
exactly as `pattern.split('.').collect::<Vec<_>>()` does in the source. -/
def splitDot (s : String) : List String :=
  (s.toList.splitOn '.').map (fun cs => String.mk cs)

/-- The source's recursive branch re-joins a segment-list suffix with `"."`
and the callee re-splits it.  On the dot-free segment lists that arise from
`splitDot` this round trip is the identity when the list is nonempty, and
turns the empty list into `[""]` (joining `[]` gives `""`, which re-splits
to `[""]`).  `resplit` is that round trip. -/
def resplit (xs : List String) : List String :=
  if xs = [] then [""] else xs

/-- `MemoryEventBus::topic_matches` on segment arrays (bus.rs lines 150-197).
The source walks `p_idx`/`t_idx` over both arrays; the loop state is exactly
the pair of remaining suffixes, rendered here as structural recursion:
* both suffixes nonempty — the loop body: `"*"` consumes one segment of each;
  `"#"` returns true when last, otherwise tries every split point
  `i ∈ t_idx..=len` recursively on the re-joined/re-split suffixes
  (lines 164-180); a literal must equal the topic segment (lines 181-187);
* topic exhausted — after the loop one trailing `"#"` is skipped
  (lines 192-194) and both indices must be at the end (line 196);
* pattern exhausted, topic not — line 196 fails. -/
def matchSegs : List String → List String → Bool
  | [], [] => true
  | [], _ :: _ => false
  | p :: ps, [] => p == "#" && ps == []
  | p :: ps, t :: ts =>
    if p = "*" then matchSegs ps ts
    else if p = "#" then
      if ps = [] then true
      else (List.range ((t :: ts).length + 1)).any fun i =>
        matchSegs ps (resplit ((t :: ts).drop i))
    else if p = t then matchSegs ps ts
    else false

/-- `MemoryEventBus::topic_matches(pattern, topic)` (bus.rs lines 150-197):
split both strings on `'.'` and run the matching loop. -/
def topic_matches (pattern topic : String) : Bool :=
  matchSegs (splitDot pattern) (splitDot topic)

/-- Reference matching semantics, written from the spec's words (§4.1):
a literal pattern segment must equal the corresponding topic segment
exactly; `*` matches exactly one arbitrary topic segment; `#` matches zero
or more topic segments, every split point being tried; matching fails when
either side is exhausted before the other unless the exhausted side's
remaining pattern is a (run of) `#`. -/
def covers : List String → List String → Bool
  | [], ts => ts.isEmpty
  | p :: ps, ts =>
    if p = "#" then (List.range (ts.length + 1)).any fun i => covers ps (ts.drop i)
    else
      match ts with
      | [] => false
      | t :: ts2 => if p = "*" then covers ps ts2 else p == t && covers ps ts2

/-- Reference semantics on strings: split on dots and apply `covers`. -/
def coversStr (pattern topic : String) : Bool :=
  covers (splitDot pattern) (splitDot topic)

/-- No two consecutive segments of the list are both `"#"`. -/
def noConsecHash : List String → Bool
  | [] => true
  | [_] => true
  | a :: b :: rest => !(a == "#" && b == "#") && noConsecHash (b :: rest)

/-! #### Equation lemmas for the matcher -/

theorem matchSegs_cons_cons (p t : String) (ps ts : List String) :
    matchSegs (p :: ps) (t :: ts) =
      if p = "*" then matchSegs ps ts
      else if p = "#" then
        if ps = [] then true
        else (List.range ((t :: ts).length + 1)).any fun i =>
          matchSegs ps (resplit ((t :: ts).drop i))
      else if p = t then matchSegs ps ts else false := rfl

theorem matchSegs_nil_right (pp : List String) :
    matchSegs pp [] = (pp == [] || pp == ["#"]) := by
  cases pp with
  | nil => rfl
  | cons p ps => simp [matchSegs]

theorem matchSegs_star (ps : List String) (t : String) (ts : List String) :
    matchSegs ("*" :: ps) (t :: ts) = matchSegs ps ts := by
  rw [matchSegs_cons_cons]; simp

theorem matchSegs_hash_last (t : String) (ts : List String) :
    matchSegs ["#"] (t :: ts) = true := by
  rw [matchSegs_cons_cons]; simp

theorem matchSegs_hash {ps : List String} (h : ps ≠ []) (t : String) (ts : List String) :
    matchSegs ("#" :: ps) (t :: ts) =
      (List.range ((t :: ts).length + 1)).any fun i =>
        matchSegs ps (resplit ((t :: ts).drop i)) := by
  rw [matchSegs_cons_cons]; simp [h]

theorem matchSegs_lit {p : String} (h1 : p ≠ "*") (h2 : p ≠ "#") (ps : List String)
    (t : String) (ts : List String) :
    matchSegs (p :: ps) (t :: ts) = if p = t then matchSegs ps ts else false := by
  rw [matchSegs_cons_cons]; simp [h1, h2]

theorem covers_nil_left (ts : List String) : covers [] ts = ts.isEmpty := rfl

theorem covers_hash (ps ts : List String) :
    covers ("#" :: ps) ts = (List.range (ts.length + 1)).any fun i => covers ps (ts.drop i) := by
  simp [covers]

theorem covers_star (ps : List String) (t : String) (ts : List String) :
    covers ("*" :: ps) (t :: ts) = covers ps ts := by
  simp [covers]

theorem covers_lit {p : String} (h1 : p ≠ "*") (h2 : p ≠ "#") (ps : List String)
    (t : String) (ts : List String) :
    covers (p :: ps) (t :: ts) = (p == t && covers ps ts) := by
  simp [covers, h1, h2]

theorem covers_cons_nil {p : String} (h : p ≠ "#") (ps : List String) :
    covers (p :: ps) [] = false := by
  simp [covers, h]

/-! #### Structural lemmas -/

theorem noConsecHash_tail {a : String} {l : List String} (h : noConsecHash (a :: l) = true) :
    noConsecHash l = true := by
  cases l with
  | nil => rfl
  | cons b rest => simp [noConsecHash] at h ⊢; exact h.2

theorem noConsecHash_hash_head {l : List String} (h : noConsecHash ("#" :: l) = true) :
    ∀ b ∈ l.head?, b ≠ "#" := by
  cases l with
  | nil => simp
  | cons b rest =>
    simp [noConsecHash] at h
    intro c hc
    simp at hc
    subst hc
    intro hb
    exact absurd h.1 (by simp [hb])

/-- Against an exhausted topic the reference accepts exactly the all-`#`
pattern suffixes. -/
theorem covers_nil_right : ∀ pp : List String, covers pp [] = pp.all (fun s => s == "#")
  | [] => rfl
  | p :: ps => by
    by_cases hp : p = "#"
    · subst hp
      simp [covers_hash, List.range_succ, covers_nil_right ps]
    · rw [covers_cons_nil hp]
      rw [List.all_cons, show (p == "#") = false by simp [hp]]
      simp

/-- Which pattern suffixes (nonempty segments, not headed by `"#"`) accept the
phantom `[""]` topic that `resplit` produces for an exhausted topic suffix. -/
theorem matchSegs_phantom {ps : List String} (hemp : ps.all (fun s => s != "") = true)
    (hhead : ∀ b ∈ ps.head?, b ≠ "#") :
    matchSegs ps [""] = true ↔ ps = ["*"] ∨ ps = ["*", "#"] := by
  cases ps with
  | nil => simp [matchSegs]
  | cons a rest =>
    have ha : a ≠ "#" := hhead a (by simp)
    have ha' : a ≠ "" := by simp at hemp; exact hemp.1
    by_cases hstar : a = "*"
    · subst hstar
      rw [matchSegs_star, matchSegs_nil_right]
      simp
    · rw [matchSegs_lit hstar ha]
      rw [if_neg (by exact fun h => ha' h)]
      simp [hstar]

/-- The implemented matcher agrees with the reference semantics on every
pattern whose segments are nonempty and contain no two consecutive `"#"`;
the topic is unrestricted. -/
theorem matchSegs_eq_covers : ∀ pp : List String,
    pp.all (fun s => s != "") = true → noConsecHash pp = true →
    ∀ tp, matchSegs pp tp = covers pp tp
  | [], _, _, tp => by cases tp <;> simp [matchSegs, covers]
  | p :: ps, hemp, hcc, tp => by
    have hemp' : ps.all (fun s => s != "") = true := by
      simp at hemp; simpa using hemp.2
    have hcc' : noConsecHash ps = true := noConsecHash_tail hcc
    have ih := fun tp => matchSegs_eq_covers ps hemp' hcc' tp
    cases tp with
    | nil =>
      rw [matchSegs_nil_right, covers_nil_right]
      by_cases hp : p = "#"
      · subst hp
        cases ps with
        | nil => simp
        | cons q rest =>
          have hq : q ≠ "#" := noConsecHash_hash_head hcc q (by simp)
          simp [hq]
      · rw [List.all_cons, show (p == "#") = false by simp [hp]]
        simp [hp]
    | cons t ts =>
      by_cases hstar : p = "*"
      · subst hstar
        rw [matchSegs_star, covers_star, ih]
      · by_cases hp : p = "#"
        · subst hp
          cases hps : ps with
          | nil =>
            rw [matchSegs_hash_last, covers_hash, eq_comm, List.any_eq_true]
            refine ⟨(t :: ts).length, by simp, ?_⟩
            simp [List.drop_length, covers_nil_left]
          | cons q rest =>
            subst hps
            rw [matchSegs_hash (by simp), covers_hash]
            rw [Bool.eq_iff_iff, List.any_eq_true, List.any_eq_true]
            constructor
            · rintro ⟨i, hi, hms⟩
              simp only [List.mem_range] at hi
              rcases Nat.lt_or_ge i (t :: ts).length with hlt | hge
              · refine ⟨i, by simpa using hlt.trans (Nat.lt_succ_self _), ?_⟩
                have hne : (t :: ts).drop i ≠ [] := by
                  intro h
                  have := List.drop_eq_nil_iff.mp h
                  omega
                rw [resplit, if_neg hne] at hms
                rw [← ih]
                exact hms
              · have hieq : i = (t :: ts).length := by omega
                subst hieq
                rw [List.drop_length, resplit, if_pos rfl] at hms
                have hhead : ∀ b ∈ (q :: rest).head?, b ≠ "#" :=
                  noConsecHash_hash_head hcc
                rcases (matchSegs_phantom hemp' hhead).mp hms with h1 | h1
                · -- suffix ["*"]: the final real topic segment is matched by the star
                  refine ⟨(t :: ts).length - 1,
                    by simp only [List.mem_range, List.length_cons]; omega, ?_⟩
                  rw [h1]
                  have hlen : ((t :: ts).drop ((t :: ts).length - 1)).length = 1 := by
                    rw [List.length_drop]
                    simp
                  rcases List.length_eq_one.mp hlen with ⟨x, hx⟩
                  rw [hx, covers_star]
                  rfl
                · -- suffix ["*", "#"]: split at zero, star eats t, trailing # the rest
                  refine ⟨0, by simp, ?_⟩
                  rw [h1]
                  simp only [List.drop_zero]
                  rw [covers_star, covers_hash, List.any_eq_true]
                  exact ⟨ts.length, by simp, by simp [List.drop_length, covers_nil_left]⟩
            · rintro ⟨i, hi, hcov⟩
              simp only [List.mem_range] at hi
              rcases Nat.lt_or_ge i (t :: ts).length with hlt | hge
              · refine ⟨i, by simpa using hlt.trans (Nat.lt_succ_self _), ?_⟩
                have hne : (t :: ts).drop i ≠ [] := by
                  intro h
                  have := List.drop_eq_nil_iff.mp h
                  omega
                rw [resplit, if_neg hne, ih]
                exact hcov
              · have hieq : i = (t :: ts).length := by omega
                subst hieq
                rw [List.drop_length, covers_nil_right] at hcov
                simp at hcov
                have hq : q ≠ "#" := noConsecHash_hash_head hcc q (by simp)
                exact absurd hcov.1 hq
        · rw [matchSegs_lit hstar hp, covers_lit hstar hp]
          by_cases ht : p = t
          · subst ht
            rw [if_pos rfl, ih]
            simp
          · rw [if_neg ht, show (p == t) = false by simp [ht]]
            simp

/-! #### String-level matcher lemmas -/

theorem matchSegs_hash_any (tp : List String) : matchSegs ["#"] tp = true := by
  cases tp with
  | nil => rfl
  | cons t ts => exact matchSegs_hash_last t ts

theorem matchSegs_empty_pattern (tp : List String) :
    matchSegs [""] tp = (tp == [""]) := by
  cases tp with
  | nil => rfl
  | cons t ts =>
    rw [matchSegs_lit (by decide) (by decide)]
    cases ts with
    | nil =>
      by_cases ht : "" = t
      · subst ht; simp [matchSegs]
      · rw [if_neg ht]
        have ht' : t ≠ "" := fun h => ht h.symm
        simp [ht']
    | cons u us =>
      by_cases ht : "" = t
      · subst ht; simp [matchSegs]
      · rw [if_neg ht]; simp

theorem splitOn_toList_ne_nil (t : String) : t.toList.splitOn '.' ≠ [] :=
  List.splitOnP_ne_nil _ _

/-- Only the empty string splits into the single empty segment. -/
theorem splitDot_eq_single_empty {t : String} (h : splitDot t = [""]) : t = "" := by
  unfold splitDot at h
  have h2 : t.toList.splitOn '.' = [[]] := by
    rcases hl : t.toList.splitOn '.' with _ | ⟨x, rest⟩
    · exact absurd hl (splitOn_toList_ne_nil t)
    · rw [hl] at h
      simp at h
      rcases h with ⟨hx, hrest⟩
      have hx' : x = [] := by
        have := congrArg String.toList hx
        simpa using this
      subst hx' hrest
      rfl
  have h3 : ['.'].intercalate (t.toList.splitOn '.') = t.toList :=
    List.intercalate_splitOn t.toList '.'
  rw [h2] at h3
  simp [List.intercalate] at h3
  obtain ⟨l⟩ := t
  simp [String.toList, String.data] at h3
  simp [h3]

theorem splitDot_empty : splitDot "" = [""] := rfl

/-! ### Data model (types.rs, resources.rs) -/

/-- `App` (platform-rbac resources.rs lines 11-20): the closed set of source
applications. -/
inductive App where
  | Shared
  | Verity
  | NoteMan
  | ShipCheck
deriving DecidableEq

/-- `App::as_str` (resources.rs lines 24-31). -/
def App.as_str : App → String
  | .Shared => "shared"
  | .Verity => "verity"
  | .NoteMan => "noteman"
  | .ShipCheck => "shipcheck"

/-- The `Event` envelope (types.rs lines 17-51).  `id` stands for the `Uuid`;
`payload` is the opaque serialised blob.  The remaining fields (timestamp,
org/project/user context, correlation id, version, metadata) are opaque
context the bus never consults for routing and are omitted from the model. -/
structure Event where
  id : Nat
  event_type : String
  source : App
  payload : String
deriving DecidableEq

/-- `Event::topic` (types.rs lines 110-112): `"{source}.{event_type}"`. -/
def Event.topic (e : Event) : String :=
  e.source.as_str ++ "." ++ e.event_type

/-- `EventBusError` (bus.rs lines 14-35). -/
inductive EventBusError where
  | PublishError (msg : String)
  | SubscribeError (msg : String)
  | ConnectionError (msg : String)
  | SerializationError (msg : String)
  | ChannelClosed
deriving DecidableEq

/-- `EventBusResult<T>` (bus.rs line 38). -/
abbrev EventBusResult (α : Type) := Except EventBusError α

/-- `EventBusStats` (bus.rs lines 98-108).  `u64`/`usize` counters modelled
as `Nat`; every operation changes a counter by at most one, so overflow is
unreachable in any execution shorter than `2 ^ 64` calls. -/
structure EventBusStats where
  events_published : Nat
  events_delivered : Nat
  active_subscriptions : Nat
  registered_handlers : Nat
deriving DecidableEq

/-- `EventBusStats::default()`: all counters zero. -/
def EventBusStats.default : EventBusStats :=
  { events_published := 0, events_delivered := 0, active_subscriptions := 0,
    registered_handlers := 0 }

/-- `Subscription` (bus.rs lines 41-48).  The `broadcast::Receiver` is
modelled by the pair of the channel key (`topic`, the pattern string the
caller subscribed with) and a read `cursor`: the receiver observes exactly
the events sent on its channel after its creation, i.e. the channel buffer
from `cursor` on.  The source's uuid `id` is never consulted by any bus
operation and is fixed to 0. -/
structure Subscription where
  id : Nat
  topic : String
  cursor : Nat
deriving DecidableEq

/-- A registered handler (`Arc<dyn EventHandler>`, bus.rs lines 62-68):
its identity `hid` and the pattern list returned by `topics()`.  The
`handle` body is irrelevant to delivery; an invocation is recorded as a
`(hid, event)` pair. -/
structure HandlerReg where
  hid : Nat
  topics : List String
deriving DecidableEq

/-! ### Local bus (bus.rs, `MemoryEventBus`, lines 110-301) -/

/-- `MemoryEventBus` (bus.rs lines 114-123).  The
`HashMap<String, broadcast::Sender<Event>>` is an association list from
pattern strings to channel buffers (the list of events sent on the channel);
iteration order of the map is the list order, which no claim depends on. -/
structure MemoryEventBus where
  subscribers : List (String × List Event)
  handlers : List HandlerReg
  stats : EventBusStats
  channel_capacity : Nat
deriving DecidableEq

/-- `MemoryEventBus::with_capacity` (bus.rs lines 140-147). -/
def MemoryEventBus.with_capacity (capacity : Nat) : MemoryEventBus :=
  { subscribers := [], handlers := [], stats := EventBusStats.default,
    channel_capacity := capacity }

/-- `MemoryEventBus::new` (bus.rs lines 135-137): capacity 1024. -/
def MemoryEventBus.new : MemoryEventBus :=
  MemoryEventBus.with_capacity 1024

/-- `MemoryEventBus::publish` (bus.rs lines 208-243): bump
`events_published`; send a copy of the event to every channel whose pattern
matches the topic (`sender.send`, buffer append — the source ignores the
send result, line 221); spawn one task per handler whose pattern list has a
match (`break` after the first matching pattern, line 237), returned here as
the list of `(hid, event)` invocations; return `Ok(())`. -/
def MemoryEventBus.publish (bus : MemoryEventBus) (event : Event) :
    EventBusResult Unit × MemoryEventBus × List (Nat × Event) :=
  let topic := event.topic
  let stats1 := { bus.stats with events_published := bus.stats.events_published + 1 }
  let subscribers1 := bus.subscribers.map fun pc =>
    if topic_matches pc.1 topic then (pc.1, pc.2 ++ [event]) else pc
  let spawned := (bus.handlers.filter fun h =>
    h.topics.any fun ht => topic_matches ht topic).map fun h => (h.hid, event)
  (.ok (), { bus with stats := stats1, subscribers := subscribers1 }, spawned)

/-- `MemoryEventBus::subscribe` (bus.rs lines 245-271): if a channel for
this exact pattern string exists, return a new receiver sharing it (cursor
at the current end of the buffer); otherwise create and register a fresh
channel (cursor 0).  `active_subscriptions` is incremented in both branches
(the stats update, lines 260-264, sits outside the channel lookup).  The
source wraps the subscription in `Ok(...)` unconditionally; the payload is
returned directly. -/
def MemoryEventBus.subscribe (bus : MemoryEventBus) (topic : String) :
    Subscription × MemoryEventBus :=
  match bus.subscribers.lookup topic with
  | some buf =>
    ({ id := 0, topic := topic, cursor := buf.length },
     { bus with stats :=
        { bus.stats with active_subscriptions := bus.stats.active_subscriptions + 1 } })
  | none =>
    ({ id := 0, topic := topic, cursor := 0 },
     { bus with
        subscribers := bus.subscribers ++ [(topic, [])],
        stats :=
          { bus.stats with active_subscriptions := bus.stats.active_subscriptions + 1 } })

/-- `MemoryEventBus::register_handler` (bus.rs lines 273-284): push the
handler and bump `registered_handlers`. -/
def MemoryEventBus.register_handler (bus : MemoryEventBus) (handler : HandlerReg) :
    EventBusResult Unit × MemoryEventBus :=
  (.ok (),
   { bus with
      handlers := bus.handlers ++ [handler],
      stats :=
        { bus.stats with registered_handlers := bus.stats.registered_handlers + 1 } })

/-- `MemoryEventBus::unsubscribe` (bus.rs lines 286-296): decrement
`active_subscriptions` only when positive; the subscription id is ignored
(`_subscription_id` in the source); always `Ok(())`. -/
def MemoryEventBus.unsubscribe (bus : MemoryEventBus) (_subscription_id : Nat) :
    EventBusResult Unit × MemoryEventBus :=
  (.ok (),
   if bus.stats.active_subscriptions > 0 then
     { bus with stats :=
        { bus.stats with active_subscriptions := bus.stats.active_subscriptions - 1 } }
   else bus)

/-- `MemoryEventBus::stats` (bus.rs lines 298-300): clone the counters under
a read lock, leaving the bus state untouched; the returned pair is the
snapshot and the (unchanged) post-call state.  Named `stats_call` because
the state field is already named `stats`. -/
def MemoryEventBus.stats_call (bus : MemoryEventBus) : EventBusStats × MemoryEventBus :=
  (bus.stats, bus)

/-- The events a subscription has received: the buffer of its channel from
its read cursor on (a `broadcast::Receiver` sees exactly the events sent
after it was created). -/
def MemoryEventBus.received (bus : MemoryEventBus) (s : Subscription) : List Event :=
  ((bus.subscribers.lookup s.topic).getD []).drop s.cursor

/-! ### Distributed bus, redis.rs variant (`redis::RedisEventBus`)

This is the `RedisEventBus` of `src/crates/platform-events/src/redis.rs`
(the one re-exported by lib.rs under the `redis` feature).  All
subscriptions share the single `local_bus` broadcast channel (line 40);
`subscribe` (lines 268-284) merely takes a new receiver on that channel; the
background `redis_listener_loop` (lines 160-234) deserialises each incoming
message, broadcasts it on the shared channel (line 208) and spawns every
handler in every bucket of the topic-keyed handler map (lines 213-224).
Note the loop never calls `topic_matches`.  (The loop's
`stats.events_received += 1` at line 204 refers to a field that does not
exist on `EventBusStats` and has no counterpart in the model.)  The external
Redis transport is abstracted away: `listener_on_message` is the loop body
applied to one already-deserialised event. -/

namespace redis

/-- `redis::RedisEventBus` state (redis.rs lines 32-50): the key prefix
(source field `prefix`, renamed because of a lexical restriction), the
single shared broadcast channel buffer, the statistics, and the handler map
`HashMap<String, Vec<Arc<dyn EventHandler>>>` keyed by topic pattern. -/
structure RedisEventBus where
  prefix_key : String
  local_bus : List Event
  stats : EventBusStats
  handlers : List (String × List HandlerReg)
deriving DecidableEq

/-- `redis::RedisEventBus::subscribe` (redis.rs lines 268-284): take a new
receiver on the shared `local_bus` channel — the pattern is stored on the
subscription but plays no part in choosing a channel — and bump
`active_subscriptions`.  The source wraps the subscription in `Ok(...)`
unconditionally; the payload is returned directly. -/
def RedisEventBus.subscribe (bus : RedisEventBus) (topic : String) :
    Subscription × RedisEventBus :=
  ({ id := 0, topic := topic, cursor := bus.local_bus.length },
   { bus with stats :=
      { bus.stats with active_subscriptions := bus.stats.active_subscriptions + 1 } })

/-- `handlers.entry(topic).or_insert_with(Vec::new).push(handler)`
(redis.rs lines 290-295) on the association-list rendering of the map. -/
def insert_push (m : List (String × List HandlerReg)) (t : String) (h : HandlerReg) :
    List (String × List HandlerReg) :=
  if (m.lookup t).isSome then
    m.map fun kv => if kv.1 = t then (kv.1, kv.2 ++ [h]) else kv
  else m ++ [(t, [h])]

/-- `redis::RedisEventBus::register_handler` (redis.rs lines 287-298): push
the handler into the bucket of each of its topics. -/
def RedisEventBus.register_handler (bus : RedisEventBus) (handler : HandlerReg) :
    EventBusResult Unit × RedisEventBus :=
  (.ok (),
   { bus with handlers :=
      handler.topics.foldl (fun m t => insert_push m t handler) bus.handlers })

/-- One iteration of `redis_listener_loop` for a successfully deserialised
event (redis.rs lines 201-224): broadcast the event on the shared channel
(`tx.send`, delivered to every receiver), then spawn `handler.handle(event)`
for every handler of every bucket of the map — no topic matching, no
per-handler deduplication.  Spawned invocations are returned as
`(hid, event)` pairs. -/
def listener_on_message (bus : RedisEventBus) (event : Event) :
    RedisEventBus × List (Nat × Event) :=
  ({ bus with local_bus := bus.local_bus ++ [event] },
   (bus.handlers.map fun kv => kv.2.map fun h => (h.hid, event)).flatten)

/-- Events a redis.rs subscription has received: everything broadcast on the
shared channel after its creation. -/
def RedisEventBus.received (bus : RedisEventBus) (s : Subscription) : List Event :=
  bus.local_bus.drop s.cursor

end redis

/-! ### Distributed bus, bus.rs variant (`redis_bus::RedisEventBus`)

The feature-gated module `redis_bus` inside bus.rs (lines 307-718).  Only
the operations the claims need are modelled: `unsubscribe` (lines 704-707)
and `replay_events` (lines 587-632).  The external Redis server's stream
store is passed explicitly as an association list from stream keys to
append logs (lists of `(entry id, stored event)` in append order). -/

namespace redis_bus

/-- `RedisEventBusConfig` (bus.rs lines 321-339); `key_prefix` is rendered
as `prefix_key` because of a lexical restriction. -/
structure RedisEventBusConfig where
  url : String
  prefix_key : String
  use_streams : Bool
  stream_max_len : Nat
  consumer_group : String
  consumer_name : String
deriving DecidableEq

/-- `redis_bus::RedisEventBus` (bus.rs lines 380-400): configuration, local
broadcast channels, handlers, the three `AtomicU64` counters and the
`AtomicBool` running flag.  Counter values are `Nat`s that the source keeps
in `u64` range. -/
structure RedisEventBus where
  config : RedisEventBusConfig
  local_channels : List (String × List Event)
  handlers : List HandlerReg
  events_published : Nat
  events_delivered : Nat
  active_subscriptions : Nat
  running : Bool
deriving DecidableEq

/-- `redis_bus::RedisEventBus::unsubscribe` (bus.rs lines 704-707):
`self.active_subscriptions.fetch_sub(1, Ordering::Relaxed)` and `Ok(())`.
`fetch_sub` on an `AtomicU64` wraps modulo `2 ^ 64`; subtracting one modulo
`2 ^ 64` is adding `2 ^ 64 - 1` modulo `2 ^ 64`.  There is no zero check. -/
def RedisEventBus.unsubscribe (bus : RedisEventBus) (_subscription_id : Nat) :
    EventBusResult Unit × RedisEventBus :=
  (.ok (),
   { bus with active_subscriptions := (bus.active_subscriptions + (2 ^ 64 - 1)) % 2 ^ 64 })

/-- `stream_key` (bus.rs lines 441-443):
`"{key_prefix}:stream:{topic with '.' replaced by ':'}"`. -/
def stream_key (config : RedisEventBusConfig) (topic : String) : String :=
  config.prefix_key ++ ":stream:" ++ (topic.replace "." ":")

/-- Modelled from the spec: the `XREAD COUNT count STREAMS key since`
command executed by `replay_events` runs on the external Redis server,
which is not part of this repository; per §4.3 replay "reads forward from
the append log starting after `sinceCursor`, returns up to `maxCount`
entries, preserving log order", i.e. the entries with id strictly greater
than the cursor, in log order, truncated to `count`. -/
def xread (streams : List (String × List (Nat × Event))) (key : String)
    (since : Nat) (count : Nat) : List (Nat × Event) :=
  (((streams.lookup key).getD []).filter fun e => since < e.1).take count

/-- `redis_bus::RedisEventBus::replay_events` (bus.rs lines 587-632): when
streams are disabled return no events; otherwise issue `XREAD` on the
topic's stream key and collect every stored entry field that deserialises
as an `Event` — exactly the stored events.  The function only reads: the
returned triple carries the (unchanged) bus state and the (unchanged)
external stream store alongside the result. -/
def RedisEventBus.replay_events (bus : RedisEventBus)
    (streams : List (String × List (Nat × Event)))
    (topic : String) (since : Nat) (count : Nat) :
    EventBusResult (List Event) × RedisEventBus × List (String × List (Nat × Event)) :=
  if bus.config.use_streams = false then (.ok [], bus, streams)
  else
    (.ok ((xread streams (stream_key bus.config topic) since count).map fun e => e.2),
     bus, streams)

end redis_bus

/-! ### Helper lemmas about the local bus -/

/-- Looking a key up after updating every entry's value in place: the first
hit is the transformed old first hit. -/
theorem lookup_map_entry (l : List (String × List Event)) (ev : Event) (tm : String → Bool)
    (key : String) :
    ((l.map fun pc => if tm pc.1 then (pc.1, pc.2 ++ [ev]) else pc).lookup key)
      = (l.lookup key).map fun buf => if tm key then buf ++ [ev] else buf := by
  induction l with
  | nil => rfl
  | cons pc rest ih =>
    obtain ⟨k, v⟩ := pc
    simp only [List.map_cons]
    by_cases htm : tm k
    · rw [if_pos htm]
      by_cases h : k = key
      · subst h
        simp [List.lookup, htm]
      · simp [List.lookup, show (key == k) = false by simp [Ne.symm h], ih]
    · rw [if_neg htm]
      by_cases h : k = key
      · subst h
        simp [List.lookup, htm]
      · simp [List.lookup, show (key == k) = false by simp [Ne.symm h], ih]

/-- A channel's buffer after `publish`: the event is appended exactly when
the channel's pattern matches the event's topic. -/
theorem lookup_publish (bus : MemoryEventBus) (ev : Event) (key : String) :
    ((bus.publish ev).2.1.subscribers.lookup key)
      = (bus.subscribers.lookup key).map
          fun buf => if topic_matches key ev.topic then buf ++ [ev] else buf := by
  show ((bus.subscribers.map fun pc =>
      if topic_matches pc.1 ev.topic then (pc.1, pc.2 ++ [ev]) else pc).lookup key) = _
  exact lookup_map_entry bus.subscribers ev (fun p => topic_matches p ev.topic) key

/-- Appending a fresh channel for pattern `p` does not touch any other
pattern's channel. -/
theorem lookup_append_single (l : List (String × List Event)) (p q : String)
    (hne : q ≠ p) :
    (l ++ [(p, ([] : List Event))]).lookup q = l.lookup q := by
  induction l with
  | nil => simp [List.lookup, show (q == p) = false by simp [hne]]
  | cons kv rest ih =>
    obtain ⟨k, v⟩ := kv
    by_cases h : q = k
    · subst h
      simp [List.lookup]
    · simp [List.lookup, show (q == k) = false by simp [h], ih]

/-- `publish` repeated over a list of events (left fold over the state). -/
def MemoryEventBus.publish_all (bus : MemoryEventBus) (evs : List Event) : MemoryEventBus :=
  evs.foldl (fun b e => (b.publish e).2.1) bus

theorem publish_all_published (evs : List Event) :
    ∀ bus : MemoryEventBus,
      (bus.publish_all evs).stats.events_published
        = bus.stats.events_published + evs.length := by
  induction evs with
  | nil => intro bus; rfl
  | cons e rest ih =>
    intro bus
    show (((bus.publish e).2.1).publish_all rest).stats.events_published = _
    rw [ih]
    show bus.stats.events_published + 1 + rest.length = _
    simp [Nat.add_assoc, Nat.add_comm 1 _]

/-- The four trait operations of the local bus, as one step type, for
quantifying over arbitrary call sequences. -/
inductive BusOp where
  | publish (event : Event)
  | subscribe (topic : String)
  | register_handler (handler : HandlerReg)
  | unsubscribe (subscription_id : Nat)

/-- State transition of one local-bus call (results discarded). -/
def MemoryEventBus.apply_op (bus : MemoryEventBus) : BusOp → MemoryEventBus
  | .publish e => (bus.publish e).2.1
  | .subscribe t => (bus.subscribe t).2
  | .register_handler h => (bus.register_handler h).2
  | .unsubscribe sid => (bus.unsubscribe sid).2

/-- State after a finite sequence of local-bus calls. -/
def MemoryEventBus.apply_ops (bus : MemoryEventBus) (ops : List BusOp) : MemoryEventBus :=
  ops.foldl MemoryEventBus.apply_op bus

theorem apply_op_delivered (bus : MemoryEventBus) (op : BusOp) :
    (bus.apply_op op).stats.events_delivered = bus.stats.events_delivered := by
  cases op with
  | publish e => rfl
  | subscribe t =>
    show ((bus.subscribe t).2).stats.events_delivered = _
    unfold MemoryEventBus.subscribe
    rcases h : bus.subscribers.lookup t with _ | buf <;> simp [h]
  | register_handler h => rfl
  | unsubscribe sid =>
    show ((bus.unsubscribe sid).2).stats.events_delivered = _
    unfold MemoryEventBus.unsubscribe
    by_cases h : bus.stats.active_subscriptions > 0 <;> simp [h]

theorem apply_ops_delivered (ops : List BusOp) :
    ∀ bus : MemoryEventBus,
      (bus.apply_ops ops).stats.events_delivered = bus.stats.events_delivered := by
  induction ops with
  | nil => intro bus; rfl
  | cons op rest ih =>
    intro bus
    show ((bus.apply_op op).apply_ops rest).stats.events_delivered = _
    rw [ih, apply_op_delivered]

/-- `replay_events`, rewritten as one equation. -/
theorem replay_events_eq (bus : redis_bus.RedisEventBus)
    (streams : List (String × List (Nat × Event)))
    (topic : String) (since : Nat) (count : Nat) :
    bus.replay_events streams topic since count =
      (.ok (if bus.config.use_streams = false then []
            else (redis_bus.xread streams (redis_bus.stream_key bus.config topic) since
              count).map fun e => e.2),
       bus, streams) := by
  unfold redis_bus.RedisEventBus.replay_events
  by_cases hs : bus.config.use_streams = false <;> simp [hs]

/-- How many of the spawned invocations went to handler `hid`. -/
def count_invocations (hid : Nat) (spawned : List (Nat × Event)) : Nat :=
  (spawned.filter fun inv => inv.1 == hid).length

/-! ### Claim scenarios (concrete inputs used by witnesses and
counterexamples) -/

/-- redis.rs bus in its freshly constructed state (`RedisEventBus::new` with
key prefix `"relay"`: empty channel, zero stats, no handlers). -/
def c2bus0 : redis.RedisEventBus :=
  { prefix_key := "relay", local_bus := [], stats := EventBusStats.default, handlers := [] }

/-- A redis.rs subscription on the pattern `"a.b"`. -/
def c2sub : Subscription := (c2bus0.subscribe "a.b").1

/-- The redis.rs bus state after that subscription. -/
def c2bus1 : redis.RedisEventBus := (c2bus0.subscribe "a.b").2

/-- An incoming event with topic `"verity.x"`, which does not match
`"a.b"`. -/
def c2event : Event := { id := 1, event_type := "x", source := .Verity, payload := "" }

/-- A handler registered for the two patterns `"verity.*"` and
`"verity.b"`. -/
def c3handler : HandlerReg := { hid := 7, topics := ["verity.*", "verity.b"] }

/-- An event with topic `"verity.b"`, matched by both of `c3handler`'s
patterns. -/
def c3event : Event := { id := 2, event_type := "b", source := .Verity, payload := "" }

/-- Fresh redis.rs bus with `c3handler` registered (its two patterns give it
two buckets in the topic-keyed handler map). -/
def c3rbus : redis.RedisEventBus :=
  (({ prefix_key := "relay", local_bus := [], stats := EventBusStats.default,
      handlers := [] } : redis.RedisEventBus).register_handler c3handler).2

/-- Fresh local bus with `c3handler` registered. -/
def c3localbus : MemoryEventBus := (MemoryEventBus.new.register_handler c3handler).2

/-- Local bus after subscribing to `"verity.item.*"` and then
`"verity.other.*"`. -/
def c4bus2 : MemoryEventBus :=
  ((MemoryEventBus.new.subscribe "verity.item.*").2.subscribe "verity.other.*").2

/-- The subscription on `"verity.item.*"`. -/
def c4subA : Subscription := (MemoryEventBus.new.subscribe "verity.item.*").1

/-- The subscription on `"verity.other.*"`. -/
def c4subB : Subscription :=
  ((MemoryEventBus.new.subscribe "verity.item.*").2.subscribe "verity.other.*").1

/-- An event with topic `"verity.item.created"`. -/
def c4event : Event :=
  { id := 3, event_type := "item.created", source := .Verity, payload := "" }

/-- A default redis_bus configuration (bus.rs lines 341-356, with a fixed
consumer name). -/
def c7config : redis_bus.RedisEventBusConfig :=
  { url := "redis://127.0.0.1:6379", prefix_key := "platform_events",
    use_streams := true, stream_max_len := 10000,
    consumer_group := "platform_consumers", consumer_name := "host" }

/-- A freshly constructed redis_bus bus (bus.rs lines 421-430): all counters
zero, running. -/
def c7bus0 : redis_bus.RedisEventBus :=
  { config := c7config, local_channels := [], handlers := [],
    events_published := 0, events_delivered := 0, active_subscriptions := 0,
    running := true }

/-! ### The claims -/

/-- C1, amended.  `Matches(pattern, topic)` coincides with the reference
semantics (`#` matches zero or more segments with every split point tried,
`*` exactly one, literals exact, exhaustion fails unless the remaining
pattern is trailing `#`s) for every pattern whose dot-split segments are all
nonempty and never put two `#` segments next to each other; the topic is
arbitrary.  Outside that class the code deviates (see the
counterexample). -/
theorem C1_matcher_reference_amended (pattern topic : String)
    (hemp : (splitDot pattern).all (fun s => s != "") = true)
    (hcc : noConsecHash (splitDot pattern) = true) :
    topic_matches pattern topic = coversStr pattern topic :=
  matchSegs_eq_covers (splitDot pattern) hemp hcc (splitDot topic)

/-- C1 witness: the amended equivalence applied to the mid-pattern-`#`
backtracking example `Matches("a.#.b", "a.x.y.b")`. -/
theorem C1_witness :
    ((splitDot "a.#.b").all (fun s => s != "") = true)
      ∧ noConsecHash (splitDot "a.#.b") = true
      ∧ topic_matches "a.#.b" "a.x.y.b" = coversStr "a.#.b" "a.x.y.b"
      ∧ topic_matches "a.#.b" "a.x.y.b" = true :=
  ⟨by decide, by decide,
   C1_matcher_reference_amended "a.#.b" "a.x.y.b" (by decide) (by decide), by decide⟩

/-- C1 counterexample: the claim as stated fails at pattern `"a.#.#"` and
topic `"a"`.  The reference semantics accepts (each `#` matches zero
segments), but the code's loop exits with the topic exhausted and skips only
a single trailing `#`, returning false. -/
theorem C1_counterexample :
    topic_matches "a.#.#" "a" = false ∧ coversStr "a.#.#" "a" = true := by
  constructor
  · decide
  · decide

/-- C2 (code bug).  In redis.rs, `subscribe("a.b")` hands out a receiver on
the single shared `local_bus` channel, and the listener loop broadcasts
every deserialised event on that channel without ever calling the topic
matcher: the subscription on `"a.b"` is delivered an event with topic
`"verity.x"` even though `topic_matches "a.b" "verity.x"` is false —
contradicting the claim, the spec (§4.3 listener loop), and the
doc comments of `EventBus::subscribe` (bus.rs lines 76-85) and
`redis::RedisEventBus::subscribe` (redis.rs lines 264-267). -/
theorem C2_redis_listener_ignores_pattern :
    (redis.listener_on_message c2bus1 c2event).1.received c2sub = [c2event]
      ∧ topic_matches c2sub.topic c2event.topic = false := by
  constructor
  · decide
  · decide

/-- C3 (code bug).  A handler registered for both `"verity.*"` and
`"verity.b"` is invoked exactly once per matching event on the local path
(`MemoryEventBus::publish` breaks after the first matching pattern), but
twice per event on the redis.rs listener path: `register_handler` files the
handler under each of its topics, and the listener loop invokes every
handler of every bucket with no topic matching and no per-handler
deduplication. -/
theorem C3_handler_invoked_twice_on_redis_path :
    count_invocations 7 ((c3localbus.publish c3event).2.2) = 1
      ∧ count_invocations 7 (redis.listener_on_message c3rbus c3event).2 = 2 := by
  constructor
  · decide
  · decide

/-- C4.  On the local bus, publishing an event appends exactly one copy of
it to the channel of a subscription whose pattern matches the event's topic
and leaves the channel of a non-matching subscription unchanged — so a
matching subscription receives exactly one copy and a non-matching one
receives zero.  The hypotheses say the subscription's channel exists and its
cursor lies within the channel buffer, which hold for every subscription
handed out by `subscribe`. -/
theorem C4_publish_delivery (bus : MemoryEventBus) (ev : Event) (s : Subscription)
    (buf : List Event) (hbuf : bus.subscribers.lookup s.topic = some buf)
    (hcur : s.cursor ≤ buf.length) :
    (bus.publish ev).2.1.received s =
      bus.received s ++ (if topic_matches s.topic ev.topic then [ev] else []) := by
  unfold MemoryEventBus.received
  rw [lookup_publish, hbuf]
  by_cases hm : topic_matches s.topic ev.topic
  · simp only [hm, if_pos, Option.map_some', Option.getD_some, if_true]
    rw [List.drop_append_of_le_length hcur]
  · simp [hm]

/-- C4 witness: the round trip of the claim — subscriptions on
`"verity.item.*"` and `"verity.other.*"`, event on `"verity.item.created"`;
the first receives exactly `[c4event]`, the second nothing. -/
theorem C4_witness :
    (c4bus2.publish c4event).2.1.received c4subA = [c4event]
      ∧ (c4bus2.publish c4event).2.1.received c4subB = [] :=
  ⟨(C4_publish_delivery c4bus2 c4event c4subA [] (by decide) (by decide)).trans (by decide),
   (C4_publish_delivery c4bus2 c4event c4subB [] (by decide) (by decide)).trans (by decide)⟩

/-- C5.  The matcher's edge cases: `"#"` matches every topic (in particular
every non-empty one, including one-segment topics); the trailing `#` of
`"a.#"` also matches zero remaining segments; `"a.*.c"` rejects
`"a.b.b.c"`; and the empty pattern matches exactly the empty topic. -/
theorem C5_matcher_edge_cases :
    (∀ topic : String, topic ≠ "" → topic_matches "#" topic = true)
      ∧ topic_matches "a.#" "a" = true
      ∧ topic_matches "a.#" "a.b" = true
      ∧ topic_matches "a.#" "a.b.c" = true
      ∧ topic_matches "a.*.c" "a.b.b.c" = false
      ∧ (∀ topic : String, topic_matches "" topic = true ↔ topic = "") := by
  refine ⟨?_, by decide, by decide, by decide, by decide, ?_⟩
  · intro topic _
    exact matchSegs_hash_any (splitDot topic)
  · intro topic
    constructor
    · intro h
      unfold topic_matches at h
      rw [splitDot_empty, matchSegs_empty_pattern] at h
      simp at h
      exact splitDot_eq_single_empty h
    · rintro rfl
      rfl

/-- C5 witness: the universally quantified parts of C5 applied at concrete
topics. -/
theorem C5_witness :
    topic_matches "#" "verity.document.created" = true
      ∧ (topic_matches "" "a" = true ↔ ("a" : String) = "") :=
  ⟨C5_matcher_edge_cases.1 "verity.document.created" (by decide),
   (C5_matcher_edge_cases.2.2.2.2.2) "a"⟩

/-- C6, amended.  `subscribe(p)` creates and registers a new channel only
when no channel for the exact pattern string `p` exists (when one exists the
caller gets a new reader handle on it, with its own cursor, and the
registry is unchanged); distinct pattern strings are never coalesced (the
channels of all other patterns are untouched); but `active_subscriptions`
is incremented on every `subscribe` call, including ones that share an
existing channel — not only when a channel is created. -/
theorem C6_subscribe_amended (bus : MemoryEventBus) (p : String) :
    ((bus.subscribers.lookup p).isSome →
      (bus.subscribe p).2.subscribers = bus.subscribers
        ∧ (bus.subscribe p).1.topic = p
        ∧ (bus.subscribe p).1.cursor = ((bus.subscribers.lookup p).getD []).length)
      ∧ ((bus.subscribers.lookup p).isNone →
        (bus.subscribe p).2.subscribers = bus.subscribers ++ [(p, [])]
          ∧ (bus.subscribe p).1.topic = p
          ∧ (bus.subscribe p).1.cursor = 0)
      ∧ (bus.subscribe p).2.stats.active_subscriptions
          = bus.stats.active_subscriptions + 1
      ∧ (bus.subscribe p).2.handlers = bus.handlers
      ∧ (bus.subscribe p).2.stats.events_published = bus.stats.events_published
      ∧ (∀ q, q ≠ p →
          (bus.subscribe p).2.subscribers.lookup q = bus.subscribers.lookup q) := by
  unfold MemoryEventBus.subscribe
  rcases h : bus.subscribers.lookup p with _ | buf
  · refine ⟨by simp, fun _ => ⟨rfl, rfl, rfl⟩, rfl, rfl, rfl, ?_⟩
    intro q hq
    exact lookup_append_single bus.subscribers p q hq
  · refine ⟨fun _ => ⟨rfl, rfl, by simp [h]⟩, by simp, rfl, rfl, rfl, fun q _ => rfl⟩

/-- C6 witness: the amended theorem applied to a fresh bus (channel created)
and to the resulting bus (second subscribe on the same string shares the
channel). -/
theorem C6_witness :
    (MemoryEventBus.new.subscribe "a").2.subscribers
        = MemoryEventBus.new.subscribers ++ [("a", [])]
      ∧ ((MemoryEventBus.new.subscribe "a").2.subscribe "a").2.subscribers
        = (MemoryEventBus.new.subscribe "a").2.subscribers :=
  ⟨((C6_subscribe_amended MemoryEventBus.new "a").2.1 (by decide)).1,
   ((C6_subscribe_amended (MemoryEventBus.new.subscribe "a").2 "a").1 (by decide)).1⟩

/-- C6 counterexample: from a fresh bus, two `subscribe("a")` calls leave a
single registered channel, yet `active_subscriptions` is 2, not 1 — the
counter is incremented by the second call although a channel for `"a"`
already existed, refuting "incremented only when no channel for that exact
pattern string exists yet". -/
theorem C6_counterexample :
    ((MemoryEventBus.new.subscribe "a").2.subscribe "a").2.subscribers.length = 1
      ∧ (MemoryEventBus.new.subscribe "a").2.stats.active_subscriptions = 1
      ∧ ((MemoryEventBus.new.subscribe "a").2.subscribe "a").2.stats.active_subscriptions
          = 2 := by
  refine ⟨by decide, by decide, by decide⟩

/-- C7, amended.  On the local bus, `unsubscribe` always returns success and
leaves `active_subscriptions` at its previous value minus one clamped at
zero (so repeated calls, unknown ids, or surplus calls never error and never
drive the counter below zero), touching nothing else.  On the distributed
bus (`redis_bus`), `unsubscribe` also always returns success, but the
counter is decremented with `u64` wrap-around instead of clamping: from a
positive value it becomes value minus one, from zero it wraps to
`2 ^ 64 - 1`. -/
theorem C7_unsubscribe_amended :
    (∀ (bus : MemoryEventBus) (sid : Nat),
      (bus.unsubscribe sid).1 = .ok ()
        ∧ (bus.unsubscribe sid).2.stats.active_subscriptions
            = bus.stats.active_subscriptions - 1
        ∧ (bus.unsubscribe sid).2.subscribers = bus.subscribers
        ∧ (bus.unsubscribe sid).2.stats.events_published
            = bus.stats.events_published)
      ∧ (∀ (bus : redis_bus.RedisEventBus) (sid : Nat),
        bus.active_subscriptions < 2 ^ 64 →
        (bus.unsubscribe sid).1 = .ok ()
          ∧ (bus.unsubscribe sid).2.active_subscriptions
              = (if bus.active_subscriptions = 0 then 2 ^ 64 - 1
                 else bus.active_subscriptions - 1)) := by
  constructor
  · intro bus sid
    unfold MemoryEventBus.unsubscribe
    by_cases h : bus.stats.active_subscriptions > 0
    · simp [h]
    · simp [h]
      omega
  · intro bus sid h
    unfold redis_bus.RedisEventBus.unsubscribe
    refine ⟨rfl, ?_⟩
    by_cases h0 : bus.active_subscriptions = 0
    · simp [h0]
    · rw [if_neg h0]
      have h1 : bus.active_subscriptions + (2 ^ 64 - 1)
          = 2 ^ 64 + (bus.active_subscriptions - 1) := by omega
      simp [h1, Nat.add_mod_left]
      omega

/-- C7 witness: the amended theorem applied to a fresh local bus (clamped at
zero, no error) and to the fresh redis_bus state (wraps from zero). -/
theorem C7_witness :
    ((MemoryEventBus.new.unsubscribe 5).1 = .ok ()
        ∧ (MemoryEventBus.new.unsubscribe 5).2.stats.active_subscriptions
            = MemoryEventBus.new.stats.active_subscriptions - 1)
      ∧ (c7bus0.unsubscribe 0).2.active_subscriptions
          = (if c7bus0.active_subscriptions = 0 then 2 ^ 64 - 1
             else c7bus0.active_subscriptions - 1) :=
  ⟨⟨(C7_unsubscribe_amended.1 MemoryEventBus.new 5).1,
    (C7_unsubscribe_amended.1 MemoryEventBus.new 5).2.1⟩,
   (C7_unsubscribe_amended.2 c7bus0 0 (by norm_num [c7bus0])).2⟩

/-- C7 counterexample: on the freshly constructed redis_bus state (zero
active subscriptions) one `unsubscribe` drives the counter to `2 ^ 64 - 1`
— the `AtomicU64::fetch_sub(1)` wraps instead of clamping at zero, so the
counter does not equal its previous value minus one clamped at zero. -/
theorem C7_counterexample :
    (c7bus0.unsubscribe 0).2.active_subscriptions = 2 ^ 64 - 1
      ∧ (c7bus0.unsubscribe 0).2.active_subscriptions
          ≠ c7bus0.active_subscriptions - 1 := by
  constructor
  · show (0 + (2 ^ 64 - 1)) % 2 ^ 64 = 2 ^ 64 - 1
    norm_num
  · show (0 + (2 ^ 64 - 1)) % 2 ^ 64 ≠ 0 - 1
    norm_num

/-- C8.  After publishing any list of `N` events on a freshly created local
bus, `events_published` is `N`; every publish returns success; and `stats()`
is a pure read: it leaves the bus unchanged and two consecutive calls with
no operation in between return equal snapshots. -/
theorem C8_stats_invariants :
    (∀ evs : List Event,
      (MemoryEventBus.new.publish_all evs).stats.events_published = evs.length)
      ∧ (∀ (bus : MemoryEventBus) (ev : Event), (bus.publish ev).1 = .ok ())
      ∧ (∀ bus : MemoryEventBus,
        bus.stats_call.2 = bus ∧ bus.stats_call.1 = bus.stats_call.2.stats_call.1) := by
  refine ⟨fun evs => ?_, fun bus ev => rfl, fun bus => ⟨rfl, rfl⟩⟩
  rw [publish_all_published]
  simp [MemoryEventBus.new, MemoryEventBus.with_capacity, EventBusStats.default]

/-- C9.  `replay_events(topic, since, count)` returns at most `count`
events, in log order (an order-preserving selection from the topic's append
log), and has no effect: the bus state — all counters, the subscription
registry, the handler list — and the external log itself are returned
unchanged, and replaying the same `(topic, since, count)` again from the
post-replay state yields the same result. -/
theorem C9_replay_frame (bus : redis_bus.RedisEventBus)
    (streams : List (String × List (Nat × Event)))
    (topic : String) (since : Nat) (count : Nat) :
    (bus.replay_events streams topic since count).2.1 = bus
      ∧ (bus.replay_events streams topic since count).2.2 = streams
      ∧ (∃ evs, (bus.replay_events streams topic since count).1 = .ok evs
          ∧ evs.length ≤ count
          ∧ evs.Sublist
              (((streams.lookup (redis_bus.stream_key bus.config topic)).getD []).map
                fun e => e.2))
      ∧ ((bus.replay_events streams topic since count).2.1.replay_events
            (bus.replay_events streams topic since count).2.2 topic since count).1
          = (bus.replay_events streams topic since count).1 := by
  have he := replay_events_eq bus streams topic since count
  refine ⟨by rw [he], by rw [he], ⟨_, by rw [he], ?_, ?_⟩, by simp [he]⟩
  · by_cases hs : bus.config.use_streams = false
    · simp [hs]
    · rw [if_neg hs, List.length_map]
      exact List.length_take_le _ _
  · by_cases hs : bus.config.use_streams = false
    · simp [hs]
    · rw [if_neg hs]
      refine List.Sublist.map _ ?_
      exact (List.take_sublist _ _).trans (List.filter_sublist _)

/-- C10.  No local-bus operation ever touches `events_delivered`: after any
finite sequence of publish/subscribe/register_handler/unsubscribe calls on a
fresh `MemoryEventBus`, the delivered counter still reads zero — the gauge
advertised in `EventBusStats` is never updated on the local delivery
path. -/
theorem C10_local_delivered_never_incremented (ops : List BusOp) :
    (MemoryEventBus.new.apply_ops ops).stats.events_delivered = 0 := by
  rw [apply_ops_delivered]
  rfl
